import Mathlib

/-!
Verification development for the photo-organizer pipeline
(src/analyze_photos_exif.py).

The Python source is shallowly embedded: JSON/EXIF values are modelled by
`PyVal` (absent | string | number), machine floats by `ℚ`, fallible Python
code by `Except PyErr`.  Function names follow the source where Lean allows.
-/

set_option allowUnsafeReducibility true
set_option maxRecDepth 100000

attribute [local semireducible] Rat.add Rat.sub Rat.mul Rat.div Rat.inv Rat.normalize Rat.neg

/-- A value read out of the EXIF JSON dictionary: absent key, JSON string, or
JSON number.  Python `dict.get` with a default is modelled by `pyGetD`. -/
inductive PyVal where
  | vNone : PyVal
  | vStr : String → PyVal
  | vNum : ℚ → PyVal
deriving DecidableEq

/-- Python exceptions that `analyze_photo_for_category` can raise on values of
unexpected type (a string method on a number raises `AttributeError`;
`in` applied to a number raises `TypeError`). -/
inductive PyErr where
  | attributeError : PyErr
  | typeError : PyErr
deriving DecidableEq

instance {ε α : Type} [DecidableEq ε] [DecidableEq α] : DecidableEq (Except ε α) := fun a b =>
  match a, b with
  | .ok x, .ok y => decidable_of_iff (x = y) (by simp)
  | .ok _, .error _ => isFalse (by simp)
  | .error _, .ok _ => isFalse (by simp)
  | .error e, .error f => decidable_of_iff (e = f) (by simp)

/-- Python truthiness of an EXIF value (None and empty string and 0 are falsy). -/
def pyTruthy : PyVal → Bool
  | .vNone => false
  | .vStr s => s != ""
  | .vNum q => decide (q ≠ 0)

/-- Models `dict.get(key, default)`: the default replaces an absent value. -/
def pyGetD (v dflt : PyVal) : PyVal :=
  match v with
  | .vNone => dflt
  | x => x

/-- Models Python `a or b` on EXIF values (used for LensModel or LensSpec). -/
def pyOr (a b : PyVal) : PyVal := if pyTruthy a then a else b

/-- Boolean test that the character list `pat` starts the character list. -/
def leadsList : List Char → List Char → Bool
  | [], _ => true
  | _ :: _, [] => false
  | p :: ps, c :: cs => p == c && leadsList ps cs

/-- Contiguous-sublist test over characters; models Python `pat in s`. -/
def containsChars (pat : List Char) : List Char → Bool
  | [] => pat.isEmpty
  | c :: rest => leadsList pat (c :: rest) || containsChars pat rest

/-- Models Python substring membership `pat in s`. -/
def pyIn (pat s : String) : Bool := containsChars pat.data s.data

/-- Models Python `str.lower()` (ASCII case folding, as used for EXIF tags). -/
def lowerStr (s : String) : String := String.mk (s.data.map Char.toLower)

/-- Replace every non-overlapping occurrence of `pat` (left to right), with
explicit fuel; models Python `str.replace`. -/
def replaceChars (pat rep : List Char) : ℕ → List Char → List Char
  | _, [] => []
  | 0, l => l
  | fuel+1, c :: rest =>
    if leadsList pat (c :: rest) then
      rep ++ replaceChars pat rep fuel ((c :: rest).drop pat.length)
    else c :: replaceChars pat rep fuel rest

/-- Models Python `s.replace(pat, rep)`. -/
def pyReplace (s pat rep : String) : String :=
  String.mk (replaceChars pat.data rep.data s.data.length s.data)

/-- Numeric value of a digit list (most significant first). -/
def digitsVal (l : List Char) : ℕ := l.foldl (fun a c => 10 * a + (c.toNat - 48)) 0

/-- Nonempty list of decimal digits. -/
def isDigits (l : List Char) : Bool := !l.isEmpty && l.all (fun c => c.isDigit)

def pow10 : ℕ → ℕ
  | 0 => 1
  | n+1 => 10 * pow10 n

/-- Split at the first separator character, if any. -/
def breakOnChar (isSep : Char → Bool) : List Char → List Char × Option (List Char)
  | [] => ([], none)
  | c :: rest =>
    if isSep c then ([], some rest)
    else
      let r := breakOnChar isSep rest
      (c :: r.1, r.2)

/-- Strip one optional leading sign; returns (isNegative, rest). -/
def parseSign : List Char → Bool × List Char
  | [] => (false, [])
  | c :: rest =>
    if c == '-' then (true, rest)
    else if c == '+' then (false, rest)
    else (false, c :: rest)

/-- Unsigned decimal mantissa: digits, digits.digits, digits., or .digits. -/
def parseMantissa (l : List Char) : Option ℚ :=
  match breakOnChar (fun c => c == '.') l with
  | (ip, none) => if isDigits ip then some ((digitsVal ip : ℚ)) else none
  | (ip, some fp) =>
    if ip.all (fun c => c.isDigit) && fp.all (fun c => c.isDigit) && !(ip.isEmpty && fp.isEmpty) then
      some ((digitsVal ip : ℚ) + (digitsVal fp : ℚ) / (pow10 fp.length : ℚ))
    else none

def trimChars (l : List Char) : List Char :=
  ((l.dropWhile (fun c => c.isWhitespace)).reverse.dropWhile (fun c => c.isWhitespace)).reverse

/-- Models Python `float(s)` on decimal and exponent notation, `none` when the
string cannot be parsed (Python raises ValueError there). -/
def pyFloatOfStr (s : String) : Option ℚ :=
  let sg := parseSign (trimChars s.data)
  match breakOnChar (fun c => c == 'e' || c == 'E') sg.2 with
  | (m, none) => (parseMantissa m).map (fun q => if sg.1 then -q else q)
  | (m, some ex) =>
    let esg := parseSign ex
    if isDigits esg.2 then
      (parseMantissa m).map (fun q =>
        let v := if esg.1 then q / (pow10 (digitsVal esg.2) : ℚ) else q * (pow10 (digitsVal esg.2) : ℚ)
        if sg.1 then -v else v)
    else none

/-- Models Python `int(s)`: optional sign then digits only. -/
def pyIntOfStr (s : String) : Option ℤ :=
  let sg := parseSign (trimChars s.data)
  if isDigits sg.2 then
    some (if sg.1 then -(digitsVal sg.2 : ℤ) else (digitsVal sg.2 : ℤ))
  else none

/-- Truncation toward zero; models Python `int(float)`. -/
def ratTrunc (q : ℚ) : ℤ := if q < 0 then -((-q).floor) else q.floor

/-- Models `float(x) if x else 0` guarded by `except (ValueError, TypeError)`,
applied to an already-string value (the focal length after `.replace`). -/
def floatOfStrElse0 (s : String) : ℚ :=
  if s == "" then 0 else (pyFloatOfStr s).getD 0

/-- Models `float(x) if x else 0` guarded by `except (ValueError, TypeError)`
on a raw EXIF value (used for FNumber, absent key defaults to 0). -/
def pyFloatElse0 : PyVal → ℚ
  | .vNone => 0
  | .vStr s => if s == "" then 0 else (pyFloatOfStr s).getD 0
  | .vNum q => q

/-- Models `int(x) if x else 0` guarded by `except (ValueError, TypeError)`
on a raw EXIF value (used for ISO, absent key defaults to 0). -/
def pyIntElse0 : PyVal → ℤ
  | .vNone => 0
  | .vStr s => if s == "" then 0 else (pyIntOfStr s).getD 0
  | .vNum q => ratTrunc q

/-- Models `x in [s1, ..., sn]` for an EXIF value against string literals;
never raises (list membership is equality testing). -/
def pyInList (v : PyVal) (opts : List String) : Bool :=
  match v with
  | .vStr s => opts.contains s
  | _ => false

/-- The EXIF fields read by `analyze_photo_for_category`, each as the raw
JSON value found under the corresponding key. -/
structure ExifData where
  focalLength : PyVal
  fNumber : PyVal
  iso : PyVal
  shutterSpeed : PyVal
  meteringMode : PyVal
  focusMode : PyVal
  afAreaMode : PyVal
  sceneMode : PyVal
  subjectDistance : PyVal
  lensModel : PyVal
  lensSpec : PyVal
  exposureMode : PyVal
  flash : PyVal
  burstMode : PyVal
  sequenceNumber : PyVal
deriving DecidableEq

/-- The numeric thresholds and weights read by the scoring engine from the
configuration's `categories` table (declaration order Portrait, Landscape,
Street, Event, Wildlife, Sports, Macro, Architecture, Night).  Fields the
engine never reads (Sports focal range, Event burst threshold) are omitted. -/
structure RuleConfig where
  portraitFocalLo : ℚ
  portraitFocalHi : ℚ
  portraitFNumberMax : ℚ
  portraitWeight : ℚ
  landscapeFocalLo : ℚ
  landscapeFocalHi : ℚ
  landscapeFNumberMin : ℚ
  landscapeWeight : ℚ
  streetFocalLo : ℚ
  streetFocalHi : ℚ
  streetWeight : ℚ
  eventWeight : ℚ
  wildlifeFocalLo : ℚ
  wildlifeFocalHi : ℚ
  wildlifeWeight : ℚ
  sportsWeight : ℚ
  macSubjectDistanceMax : ℚ
  macWeight : ℚ
  archFocalLo : ℚ
  archFocalHi : ℚ
  archWeight : ℚ
  nightIsoMin : ℤ
  nightWeight : ℚ
deriving DecidableEq

/-- The built-in default configuration of `PhotoAnalyzerConfig`. -/
def defaultConfig : RuleConfig where
  portraitFocalLo := 50
  portraitFocalHi := 135
  portraitFNumberMax := 14/5
  portraitWeight := 1
  landscapeFocalLo := 0
  landscapeFocalHi := 35
  landscapeFNumberMin := 8
  landscapeWeight := 1
  streetFocalLo := 28
  streetFocalHi := 50
  streetWeight := 1
  eventWeight := 1
  wildlifeFocalLo := 200
  wildlifeFocalHi := 999
  wildlifeWeight := 1
  sportsWeight := 1
  macSubjectDistanceMax := 50
  macWeight := 1
  archFocalLo := 0
  archFocalHi := 24
  archWeight := 1
  nightIsoMin := 1600
  nightWeight := 1

/-- String method on a value obtained with default `''`; raises
AttributeError on a number (Python line 212: `.replace` on FocalLength). -/
def getStrOrRaise : PyVal → Except PyErr String
  | .vNone => .ok ""
  | .vStr s => .ok s
  | .vNum _ => .error .attributeError

/-- `.lower()` on a value obtained with default `''`; raises AttributeError
on a number (SceneMode, LensModel/LensSpec). -/
def getLowerOrRaise : PyVal → Except PyErr String
  | .vNone => .ok ""
  | .vStr s => .ok (lowerStr s)
  | .vNum _ => .error .attributeError

/-- The SubjectDistance contribution to the Macro score: `'cm' in x` raises
TypeError on a truthy number; a parse failure inside the try block scores 0. -/
def subjectBonus (v : PyVal) (maxDist w : ℚ) : Except PyErr ℚ :=
  match v with
  | .vNone => .ok 0
  | .vStr s =>
    .ok (if s != "" && pyIn "cm" s then
      match pyFloatOfStr (pyReplace s " cm" "") with
      | some d => if d < maxDist then 4 * w else 0
      | none => 0
    else 0)
  | .vNum q => if q = 0 then .ok 0 else .error .typeError

/-- The Flash contribution to the Night score: `'No flash' not in x` raises
TypeError on a truthy number. -/
def flashBonus (v : PyVal) (w : ℚ) : Except PyErr ℚ :=
  match v with
  | .vNone => .ok 0
  | .vStr s => .ok (if s != "" && !(pyIn "No flash" s) then w else 0)
  | .vNum q => if q = 0 then .ok 0 else .error .typeError

/-- The shutter-speed contribution to the Sports score.  The whole parse sits
in a bare `try/except`, so numbers, malformed fractions and division by zero
all contribute 0 rather than raising. -/
def shutterBonus (v : PyVal) (w : ℚ) : ℚ :=
  match v with
  | .vNone => 0
  | .vNum _ => 0
  | .vStr s =>
    if s == "" then 0
    else if pyIn "/" s then
      match (s.data.splitOn '/').map String.mk with
      | [a, b] =>
        match pyFloatOfStr a, pyFloatOfStr b with
        | some x, some y =>
          if y = 0 then 0
          else if x / y ≤ 1/500 then 3 * w
          else if x / y ≤ 1/100 then 1 * w
          else 0
        | _, _ => 0
      | _ => 0
    else 0

def portraitScore (cfg : RuleConfig) (fl fn : ℚ) (sceneLower : String) (e : ExifData) : ℚ :=
  (if cfg.portraitFocalLo ≤ fl ∧ fl ≤ cfg.portraitFocalHi then 4 * cfg.portraitWeight else 0) +
  (if 0 < fn ∧ fn ≤ cfg.portraitFNumberMax then 3 * cfg.portraitWeight else 0) +
  (if pyIn "portrait" sceneLower then 6 * cfg.portraitWeight else 0) +
  (if pyInList e.afAreaMode ["Center", "Spot", "Flexible Spot", "Single Point"] then 2 * cfg.portraitWeight else 0) +
  (if pyInList e.focusMode ["AF-S", "Single AF"] then 1 * cfg.portraitWeight else 0) +
  (if pyInList e.exposureMode ["Aperture Priority", "Manual"] then 1 * cfg.portraitWeight else 0) -
  (if fl < 35 then 2 else 0) - (if fn > 8 then 2 else 0)

def landscapeScore (cfg : RuleConfig) (fl fn : ℚ) (sceneLower : String) (e : ExifData) : ℚ :=
  (if cfg.landscapeFocalLo ≤ fl ∧ fl ≤ cfg.landscapeFocalHi then 4 * cfg.landscapeWeight else 0) +
  (if fn ≥ cfg.landscapeFNumberMin then 3 * cfg.landscapeWeight else 0) +
  (if pyIn "landscape" sceneLower then 6 * cfg.landscapeWeight else 0) +
  (if pyInList e.afAreaMode ["Wide", "Zone", "Multi"] then 2 * cfg.landscapeWeight else 0) +
  (if pyInList e.focusMode ["AF-S", "Manual"] then 1 * cfg.landscapeWeight else 0) +
  (if pyInList e.exposureMode ["Aperture Priority", "Manual"] then 1 * cfg.landscapeWeight else 0) -
  (if fl > 100 then 2 else 0) - (if fn < 4 then 2 else 0)

def streetScore (cfg : RuleConfig) (fl fn : ℚ) (iso : ℤ) (e : ExifData) : ℚ :=
  (if cfg.streetFocalLo ≤ fl ∧ fl ≤ cfg.streetFocalHi then 3 * cfg.streetWeight else 0) +
  (if 7/2 ≤ fn ∧ fn ≤ 8 then 2 * cfg.streetWeight else 0) +
  (if pyInList e.meteringMode ["Average", "Center-weighted average", "Multi-segment"] then 1 * cfg.streetWeight else 0) +
  (if pyInList e.focusMode ["AF-C", "Continuous AF"] then 2 * cfg.streetWeight else 0) +
  (if pyInList e.exposureMode ["Aperture Priority", "Program"] then 1 * cfg.streetWeight else 0) +
  (if pyInList e.afAreaMode ["Wide", "Zone"] then 1 * cfg.streetWeight else 0) +
  (if iso ≥ 400 then 1 * cfg.streetWeight else 0)

def wildlifeScore (cfg : RuleConfig) (fl : ℚ) (e : ExifData) : ℚ :=
  (if cfg.wildlifeFocalLo ≤ fl ∧ fl ≤ cfg.wildlifeFocalHi then 5 * cfg.wildlifeWeight else 0) +
  (if pyInList e.focusMode ["AF-C", "Continuous AF"] then 2 * cfg.wildlifeWeight else 0) +
  (if pyInList e.afAreaMode ["Zone", "Wide"] then 1 * cfg.wildlifeWeight else 0)

def sportsScore (cfg : RuleConfig) (fl : ℚ) (e : ExifData) : ℚ :=
  (if cfg.wildlifeFocalLo ≤ fl ∧ fl ≤ cfg.wildlifeFocalHi then 4 * cfg.sportsWeight else 0) +
  (if pyInList e.focusMode ["AF-C", "Continuous AF"] then 3 * cfg.sportsWeight else 0) +
  shutterBonus e.shutterSpeed cfg.sportsWeight +
  (if pyInList e.afAreaMode ["Zone", "Wide"] then 1 * cfg.sportsWeight else 0)

def macScore (cfg : RuleConfig) (lensLower : String) (subjB fn : ℚ) (e : ExifData) : ℚ :=
  (if pyIn "macro" lensLower then 8 * cfg.macWeight else 0) +
  subjB +
  (if fn ≥ 8 then 1 * cfg.macWeight else 0) +
  (if pyInList e.focusMode ["AF-S", "Manual"] then 1 * cfg.macWeight else 0)

def nightScore (cfg : RuleConfig) (iso : ℤ) (sceneLower : String) (fn flashB : ℚ) : ℚ :=
  (if iso ≥ cfg.nightIsoMin then 3 * cfg.nightWeight else 0) +
  (if pyIn "night" sceneLower then 6 * cfg.nightWeight else 0) +
  (if iso ≥ 3200 then 2 * cfg.nightWeight else 0) +
  (if fn ≥ 14/5 then 1 * cfg.nightWeight else 0) +
  flashB

def archScore (cfg : RuleConfig) (fl fn : ℚ) (e : ExifData) : ℚ :=
  (if cfg.archFocalLo ≤ fl ∧ fl ≤ cfg.archFocalHi then 3 * cfg.archWeight else 0) +
  (if 28/5 ≤ fn ∧ fn ≤ 11 then 2 * cfg.archWeight else 0) +
  (if pyInList e.focusMode ["AF-S", "Manual"] then 1 * cfg.archWeight else 0) +
  (if pyInList e.afAreaMode ["Center", "Spot"] then 1 * cfg.archWeight else 0) +
  (if pyInList e.exposureMode ["Aperture Priority", "Manual"] then 1 * cfg.archWeight else 0)

def eventScore (cfg : RuleConfig) (e : ExifData) : ℚ :=
  (if pyTruthy e.burstMode then 3 * cfg.eventWeight else 0) +
  (if pyTruthy e.sequenceNumber then 1 * cfg.eventWeight else 0)

/-- The per-category score table of `analyze_photo_for_category` (its
`category_scores` dict, in configuration declaration order), or the Python
exception the scoring code raises.  Each entry is clamped at zero with
`max(0, score)` exactly as in the source. -/
def category_scores (exif : ExifData) (cfg : RuleConfig) : Except PyErr (List (String × ℚ)) :=
  match getStrOrRaise exif.focalLength with
  | .error e => .error e
  | .ok focalRaw =>
    let fl := floatOfStrElse0 (pyReplace focalRaw " mm" "")
    let fn := pyFloatElse0 exif.fNumber
    let iso := pyIntElse0 exif.iso
    match getLowerOrRaise exif.sceneMode with
    | .error e => .error e
    | .ok sceneLower =>
      match getLowerOrRaise (pyOr (pyGetD exif.lensModel (.vStr "")) (pyGetD exif.lensSpec (.vStr ""))) with
      | .error e => .error e
      | .ok lensLower =>
        match subjectBonus exif.subjectDistance cfg.macSubjectDistanceMax cfg.macWeight with
        | .error e => .error e
        | .ok subjB =>
          match flashBonus exif.flash cfg.nightWeight with
          | .error e => .error e
          | .ok flashB =>
            .ok [("Portrait", max 0 (portraitScore cfg fl fn sceneLower exif)),
                 ("Landscape", max 0 (landscapeScore cfg fl fn sceneLower exif)),
                 ("Street", max 0 (streetScore cfg fl fn iso exif)),
                 ("Event", max 0 (eventScore cfg exif)),
                 ("Wildlife", max 0 (wildlifeScore cfg fl exif)),
                 ("Sports", max 0 (sportsScore cfg fl exif)),
                 ("Macro", max 0 (macScore cfg lensLower subjB fn exif)),
                 ("Architecture", max 0 (archScore cfg fl fn exif)),
                 ("Night", max 0 (nightScore cfg iso sceneLower fn flashB))]

/-- Python `max(category_scores.values())` (the dict is never empty). -/
def maxScore : List (String × ℚ) → ℚ
  | [] => 0
  | p :: ps => ps.foldl (fun a q => max a q.2) p.2

/-- Lines 439-452 of the source: confidence threshold 3.0, then the first
category (in dict insertion order) whose score equals the maximum. -/
def select_category (scores : List (String × ℚ)) : String :=
  let m := maxScore scores
  if m < 3 then "Uncategorized"
  else
    match scores.find? (fun p => decide (p.2 = m)) with
    | some p => p.1
    | none => "Uncategorized"

/-- The classifier `analyze_photo_for_category`: score table then selection,
propagating any Python exception of the scoring code. -/
def analyze_photo_for_category (exif : ExifData) (cfg : RuleConfig) : Except PyErr String :=
  match category_scores exif cfg with
  | .error e => .error e
  | .ok scores => .ok (select_category scores)

/-- An EXIF record with every key absent. -/
def emptyExif : ExifData where
  focalLength := .vNone
  fNumber := .vNone
  iso := .vNone
  shutterSpeed := .vNone
  meteringMode := .vNone
  focusMode := .vNone
  afAreaMode := .vNone
  sceneMode := .vNone
  subjectDistance := .vNone
  lensModel := .vNone
  lensSpec := .vNone
  exposureMode := .vNone
  flash := .vNone
  burstMode := .vNone
  sequenceNumber := .vNone

/-- A photo record as consumed by burst detection and the orchestrator:
its file name, its capture timestamp (epoch seconds, 0 when unknown) and its
scored `analyzed_category`. -/
structure Photo where
  filename : String
  ts : ℚ
  category : String
deriving DecidableEq

/-- Lexicographic string comparison by code point; models Python string
comparison used as the secondary sort key. -/
def charsLe : List Char → List Char → Bool
  | [], _ => true
  | _ :: _, [] => false
  | a :: as, b :: bs =>
    decide (a.toNat < b.toNat) || (a.toNat == b.toNat && charsLe as bs)

/-- The sort key `(capture_timestamp, filename)` of `analyze_photo_sequence`
as a total preorder (Python's sort is stable, so a stable sort under this
relation reproduces it exactly). -/
def photoLe (a b : Photo) : Prop :=
  a.ts < b.ts ∨ (a.ts = b.ts ∧ charsLe a.filename.data b.filename.data = true)

instance photoLeDec : DecidableRel photoLe :=
  fun a b =>
    inferInstanceAs (Decidable (a.ts < b.ts ∨ (a.ts = b.ts ∧ charsLe a.filename.data b.filename.data = true)))

/-- The `# Find previous photo` scan in `analyze_photo_sequence`: the element
preceding the first occurrence (at index at least 1) of `target`. -/
def findPrevAux (prev target : Photo) : List Photo → Option Photo
  | [] => none
  | x :: rest => if x = target then some prev else findPrevAux x target rest

def findPrev (l : List Photo) (target : Photo) : Option Photo :=
  match l with
  | [] => none
  | x :: rest => findPrevAux x target rest

/-- Loop state of `analyze_photo_sequence`: emitted bursts, the current burst,
and `last_timestamp`. -/
structure BurstState where
  bursts : List (List Photo)
  cur : List Photo
  last : ℚ
deriving DecidableEq

/-- One iteration of the burst-detection loop (lines 467-484 of the source). -/
def burstStep (sorted_photos : List Photo) (st : BurstState) (p : Photo) : BurstState :=
  if st.last ≠ 0 ∧ p.ts - st.last ≤ 1 then
    { bursts := st.bursts
      cur :=
        if st.cur.isEmpty then
          match findPrev sorted_photos p with
          | some q => [q, p]
          | none => [p]
        else st.cur ++ [p]
      last := p.ts }
  else
    { bursts := if 5 ≤ st.cur.length then st.bursts ++ [st.cur] else st.bursts
      cur := []
      last := p.ts }

/-- The final flush after the loop: a pending run of at least 5 is emitted. -/
def finishBursts (st : BurstState) : List (List Photo) :=
  if 5 ≤ st.cur.length then st.bursts ++ [st.cur] else st.bursts

/-- Burst detector `analyze_photo_sequence`: sort by (timestamp, filename),
then a single scan grouping photos whose gap from the previous photo is at
most 1 second, emitting runs of at least 5. -/
def analyze_photo_sequence (photos : List Photo) : List (List Photo) :=
  if photos.isEmpty then []
  else
    let sorted_photos := List.insertionSort photoLe photos
    finishBursts (sorted_photos.foldl (burstStep sorted_photos) ⟨[], [], 0⟩)

/-- The orchestrator's promotion step (lines 636-644 of `main`): every member
of every burst has its `analyzed_category` overwritten to Event.  The source
mutates the shared record objects; over value-equal records this is a map
over the full record list. -/
def promoteBursts (photos : List Photo) (bursts : List (List Photo)) : List Photo :=
  photos.map (fun p =>
    if bursts.any (fun b => b.contains p) then { p with category := "Event" } else p)

/-- The six-record burst input of the specification, timestamps
100, 100.5, 101, 101.4, 101.8, 102.3, with assorted scored categories. -/
def sixBurstPhotos : List Photo :=
  [⟨"DSC001.ARW", 100, "Portrait"⟩, ⟨"DSC002.ARW", 201/2, "Landscape"⟩,
   ⟨"DSC003.ARW", 101, "Street"⟩, ⟨"DSC004.ARW", 507/5, "Night"⟩,
   ⟨"DSC005.ARW", 509/5, "Uncategorized"⟩, ⟨"DSC006.ARW", 1023/10, "Sports"⟩]

/-- Four records all within the 1-second window of their neighbours. -/
def fourBurstPhotos : List Photo :=
  [⟨"A.ARW", 50, "X"⟩, ⟨"B.ARW", 101/2, "X"⟩, ⟨"C.ARW", 51, "X"⟩, ⟨"D.ARW", 103/2, "X"⟩]

/-- Two unknown-timestamp records together with a five-record burst. -/
def mixedZeroPhotos : List Photo :=
  [⟨"Z1.ARW", 0, "X"⟩, ⟨"Z2.ARW", 0, "Y"⟩, ⟨"E1.ARW", 10, "A"⟩, ⟨"E2.ARW", 21/2, "B"⟩,
   ⟨"E3.ARW", 11, "C"⟩, ⟨"E4.ARW", 23/2, "D"⟩, ⟨"E5.ARW", 12, "E"⟩]

/-- A source file path, split as containing directory plus final name
(`Path.parent` and `Path.name`). -/
structure PyPath where
  dir : String
  name : String
deriving DecidableEq

def pathStr (p : PyPath) : String := p.dir ++ "/" ++ p.name

/-- Index of the last dot in a character list (Python `str.rfind('.')`). -/
def lastDotIdx : List Char → Option ℕ
  | [] => none
  | c :: rest =>
    match lastDotIdx rest with
    | some i => some (i + 1)
    | none => if c == '.' then some 0 else none

/-- Python `Path.stem`: the final name without its last suffix; a dot at the
start or the end of the name does not begin a suffix. -/
def stem (name : String) : String :=
  match lastDotIdx name.data with
  | some i => if 0 < i ∧ i < name.data.length - 1 then String.mk (name.data.take i) else name
  | none => name

/-- Line 88 of the source: the cache entry location
`cache_dir / (filepath.stem + "_exif.pkl")`. -/
def cacheFilePath (cacheDir : String) (filepath : PyPath) : String :=
  cacheDir ++ "/" ++ stem filepath.name ++ "_exif.pkl"

/-- Observable outcome of one `get_exif_data_cached` call: the returned
record, whether a fresh extraction ran, and whether a cache write happened. -/
structure CacheOutcome (α : Type) where
  result : Option α
  extracted : Bool
  wroteCache : Bool
deriving DecidableEq

/-- `get_exif_data_cached`: the cache store is a map from cache-file path to
(cache-file modified time, loadable content), where content `none` models a
`pickle.load` failure; `fileMtime` is the source file's modified time;
`fresh` is what `get_exif_data` would extract (`none` on failure); `writeOk`
tells whether the cache write would succeed (its failure is swallowed). -/
def get_exif_data_cached {α : Type} (entries : String → Option (ℚ × Option α))
    (fileMtime : ℚ) (fresh : Option α) (writeOk : Bool)
    (cacheDir : String) (filepath : PyPath) : CacheOutcome α :=
  let extractPath : CacheOutcome α :=
    { result := fresh, extracted := true, wroteCache := fresh.isSome && writeOk }
  match entries (cacheFilePath cacheDir filepath) with
  | some (mt, loaded) =>
    if fileMtime < mt then
      match loaded with
      | some r => { result := some r, extracted := false, wroteCache := false }
      | none => extractPath
    else extractPath
  | none => extractPath

/-- One `exiftool -j` batch invocation as seen by `get_exif_data_batch`:
timeout, nonzero exit, or a parsed JSON array with one optional (possibly
falsy, hence `none`) entry per produced element. -/
inductive ToolResult (α : Type) where
  | timeout : ToolResult α
  | exitErr : ℤ → ToolResult α
  | ok : List (Option α) → ToolResult α
deriving DecidableEq

/-- Fuelled chunking `filepaths[i:i+batch_size]` of the batch loop. -/
def chunksGo {β : Type} (bs : ℕ) : ℕ → List β → List (List β)
  | _, [] => []
  | 0, _ :: _ => []
  | fuel+1, x :: rest => (x :: rest).take bs :: chunksGo bs fuel ((x :: rest).drop bs)

def chunks {β : Type} (bs : ℕ) (l : List β) : List (List β) := chunksGo bs l.length l

/-- `get_exif_data_batch`: per chunk, a successful tool call pairs the parsed
entries positionally with the chunk (`batch[j]`), keeping only truthy
entries; a timeout, a nonzero exit, or an output longer than the batch
(IndexError caught by `except Exception`) contributes nothing further. -/
def get_exif_data_batch {P α : Type} (tool : List P → ToolResult α)
    (filepaths : List P) (batch_size : ℕ) : List (P × α) :=
  (chunks batch_size filepaths).foldl
    (fun results batch =>
      match tool batch with
      | .ok entries =>
        results ++ (batch.zip entries).filterMap (fun pe => pe.2.map (fun r => (pe.1, r)))
      | .timeout => results
      | .exitErr _ => results)
    []

/-- Loop state of `process_with_progress`: results of this run, in-memory
processed set, and the most recently persisted progress marker. -/
structure ProgState (α : Type) where
  results : List (PyPath × α)
  processed : List String
  saved : Option (List String)
deriving DecidableEq

/-- `set.add` on the processed-paths set (insertion order kept). -/
def addToSet (s : List String) (x : String) : List String :=
  if s.contains x then s else s ++ [x]

/-- One iteration of the `process_with_progress` loop: a successful extraction
is recorded and the marker is persisted only when this run's result count is
a multiple of 100 and a progress file is configured; a failed extraction
changes nothing. -/
def progStep {α : Type} (extract : PyPath → Option α) (hasProgressFile : Bool)
    (st : ProgState α) (f : PyPath) : ProgState α :=
  match extract f with
  | some r =>
    let results := st.results ++ [(f, r)]
    let processed := addToSet st.processed (pathStr f)
    { results := results
      processed := processed
      saved := if results.length % 100 = 0 ∧ hasProgressFile then some processed else st.saved }
  | none => st

/-- Line 187 of the source: the files whose string path is not in the loaded
processed set. -/
def remainingFiles (filepaths : List PyPath) (processed : List String) : List PyPath :=
  filepaths.filter (fun f => !(processed.contains (pathStr f)))

/-- `process_with_progress`, run for `steps` loop iterations from a loaded
marker `initialProcessed` (interruption after `steps` files; a full run has
`steps` at least the number of remaining files). -/
def process_with_progress {α : Type} (filepaths : List PyPath) (initialProcessed : List String)
    (extract : PyPath → Option α) (hasProgressFile : Bool) (steps : ℕ) : ProgState α :=
  ((remainingFiles filepaths initialProcessed).take steps).foldl
    (progStep extract hasProgressFile)
    { results := [], processed := initialProcessed, saved := none }

/-- The records an uninterrupted extraction pass over `l` produces. -/
def runExtract {α : Type} (extract : PyPath → Option α) (l : List PyPath) : List (PyPath × α) :=
  l.filterMap (fun f => (extract f).map (fun r => (f, r)))

/-- Concrete two-file input for the resume analysis. -/
def resumeFiles : List PyPath := [⟨"/p", "a.ARW"⟩, ⟨"/p", "b.ARW"⟩]

/-- Extraction that fails terminally on the first file. -/
def resumeExtract : PyPath → Option ℕ := fun f => if f.name == "a.ARW" then none else some 1

/-- A copy or move performed by `organize_photos` (shutil.copy2 / shutil.move). -/
inductive FileOp where
  | copyOp : String → String → FileOp
  | moveOp : String → String → FileOp
deriving DecidableEq

/-- A photo entry as consumed by `organize_photos`: source path, optional
`analyzed_category`, and capture year/month (0 models a falsy/absent value). -/
structure PhotoRec where
  filepath : PyPath
  analyzed_category : Option String
  year : ℕ
  month : ℕ
deriving DecidableEq

/-- State of an `organize_photos` run: the set of existing file paths, the
copy/move operations performed so far, and `organized_count`. -/
structure OrgState where
  fs : List String
  ops : List FileOp
  counts : List (String × ℕ)
deriving DecidableEq

/-- `organized_count[category] += 1` on an insertion-ordered counter. -/
def bumpCount : List (String × ℕ) → String → List (String × ℕ)
  | [], cat => [(cat, 1)]
  | (c, n) :: rest, cat => if c = cat then (c, n + 1) :: rest else (c, n) :: bumpCount rest cat

/-- Python `f"{month:02d}"` for the month values at hand. -/
def natPad2 (n : ℕ) : String := if n < 10 then "0" ++ toString n else toString n

/-- The target path computed by `organize_photos` for one photo:
`output_dir / category [/ year-month] / source name`. -/
def targetPath (output_dir : String) (photo : PhotoRec) : String :=
  let category := photo.analyzed_category.getD "Uncategorized"
  let category_dir := output_dir ++ "/" ++ category
  let target_dir :=
    if photo.year ≠ 0 ∧ photo.month ≠ 0 then
      category_dir ++ "/" ++ toString photo.year ++ "-" ++ natPad2 photo.month
    else category_dir
  target_dir ++ "/" ++ photo.filepath.name

/-- One iteration of the `organize_photos` loop: copy (or move) only when the
source exists and the target does not; otherwise the filesystem, the
operation log and the counters are untouched and the loop continues. -/
def organizeStep (output_dir : String) (move_files : Bool) (st : OrgState) (photo : PhotoRec) : OrgState :=
  let category := photo.analyzed_category.getD "Uncategorized"
  let source_path := pathStr photo.filepath
  let target := targetPath output_dir photo
  if move_files then
    if st.fs.contains source_path && !(st.fs.contains target) then
      { fs := (st.fs.erase source_path) ++ [target]
        ops := st.ops ++ [.moveOp source_path target]
        counts := bumpCount st.counts category }
    else st
  else
    if st.fs.contains source_path && !(st.fs.contains target) then
      { fs := st.fs ++ [target]
        ops := st.ops ++ [.copyOp source_path target]
        counts := bumpCount st.counts category }
    else st

/-- `organize_photos` over a starting filesystem `fs0`. -/
def organize_photos (photos : List PhotoRec) (output_dir : String) (move_files : Bool)
    (fs0 : List String) : OrgState :=
  photos.foldl (organizeStep output_dir move_files) { fs := fs0, ops := [], counts := [] }

/-- True when the raw value is absent or a string, i.e. when Python string
operations on it (after a `.get(key, '')` default) cannot raise. -/
def isStringish : PyVal → Bool
  | .vNum _ => false
  | _ => true

/-- Rule configuration witnessing a Portrait/Landscape tie at score 5:
default values except that the Landscape focal range starts at 10mm and both
weights are 7/6. -/
def tieConfig : RuleConfig :=
  { defaultConfig with landscapeFocalLo := 10, portraitWeight := 7/6, landscapeWeight := 7/6 }

/-- A record whose scene mode mentions both portrait and landscape. -/
def tieExif : ExifData := { emptyExif with sceneMode := .vStr "Portrait Landscape" }

/-- A telephoto record every category scores 0 on (max score 0 < 3). -/
def lowMaxExif : ExifData := { emptyExif with focalLength := .vStr "150 mm" }

/-- A long-telephoto continuous-AF record (Wildlife 7, Sports 7 tie). -/
def wildlifeExif : ExifData :=
  { emptyExif with focalLength := .vStr "250 mm", focusMode := .vStr "AF-C" }

/-- A record whose FocalLength key holds a JSON number: `.replace(' mm','')`
on it raises AttributeError. -/
def badFocalExif : ExifData := { emptyExif with focalLength := .vNum 24 }

/-- A cache store with one entry, written at cache-file mtime 100 and holding
record 7 (extracted from /a/DSC_0001.ARW). -/
def cacheEnvA : String → Option (ℚ × Option ℕ) :=
  fun s => if s == "/cache/DSC_0001_exif.pkl" then some (100, some 7) else none

/-- Record assignment used by the batch-extraction analysis. -/
def batchRec : PyPath → ℕ := fun f => f.name.data.length

/-- A tool that produces an entry for every file except BAD.ARW, for which it
emits a falsy entry, and exits successfully. -/
def batchTool : List PyPath → ToolResult ℕ :=
  fun batch => .ok (batch.map (fun f => if f.name == "BAD.ARW" then none else some (batchRec f)))

def batchFileA : PyPath := ⟨"/d", "A.ARW"⟩
def batchFileBad : PyPath := ⟨"/d", "BAD.ARW"⟩
def batchFileC : PyPath := ⟨"/d", "C.ARW"⟩

/-- Three-file input with pairwise distinct paths, for the resume witness. -/
def resumeOkFiles : List PyPath := [⟨"/p", "a.ARW"⟩, ⟨"/p", "b.ARW"⟩, ⟨"/p", "c.ARW"⟩]

/-- Extraction succeeding on every file. -/
def resumeOkExtract : PyPath → Option String := fun f => some f.name

def orgPhotoA : PhotoRec := ⟨⟨"/src", "IMG1.ARW"⟩, some "Portrait", 2024, 9⟩
def orgPhotoB : PhotoRec := ⟨⟨"/src", "IMG2.ARW"⟩, none, 0, 0⟩

/-- A filesystem on which orgPhotoA's target already exists. -/
def orgFs0 : List String :=
  ["/src/IMG1.ARW", "/src/IMG2.ARW", "/out/Portrait/2024-09/IMG1.ARW"]

theorem foldl_max_attained (ps : List (String × ℚ)) :
    ∀ a : ℚ, ps.foldl (fun x q => max x q.2) a = a ∨
      ∃ p ∈ ps, ps.foldl (fun x q => max x q.2) a = p.2 := by
  induction ps with
  | nil => intro a; left; rfl
  | cons q ps ih =>
    intro a
    rcases ih (max a q.2) with h | ⟨p, hp, he⟩
    · by_cases hle : a ≤ q.2
      · right
        exact ⟨q, List.mem_cons_self q ps, by simpa [max_eq_right hle] using h⟩
      · left
        simpa [max_eq_left (le_of_not_le hle)] using h
    · right
      exact ⟨p, List.mem_cons_of_mem q hp, he⟩

/-- Python `max` over the values of a nonempty score table is attained. -/
theorem maxScore_attained (scores : List (String × ℚ)) (hne : scores ≠ []) :
    ∃ p ∈ scores, p.2 = maxScore scores := by
  cases scores with
  | nil => exact absurd rfl hne
  | cons p ps =>
    rcases foldl_max_attained ps p.2 with h | ⟨q, hq, he⟩
    · exact ⟨p, List.mem_cons_self p ps, by simp [maxScore, h]⟩
    · exact ⟨q, List.mem_cons_of_mem p hq, by simp [maxScore, he]⟩

/-- `find?` returns the element at the first position satisfying the
predicate. -/
theorem find?_first {α : Type} (pr : α → Bool) :
    ∀ (l : List α) (x : α), l.find? pr = some x →
      ∃ n, ∃ h : n < l.length, l.get ⟨n, h⟩ = x ∧ pr x = true ∧
        ∀ m (hm : m < n), pr (l.get ⟨m, hm.trans h⟩) = false := by
  intro l
  induction l with
  | nil => intro x hx; simp [List.find?] at hx
  | cons a l ih =>
    intro x hx
    by_cases ha : pr a = true
    · rw [List.find?_cons_of_pos _ ha] at hx
      injection hx with hx
      subst hx
      exact ⟨0, Nat.succ_pos _, rfl, ha, fun m hm => absurd hm (Nat.not_lt_zero m)⟩
    · rw [List.find?_cons_of_neg _ ha] at hx
      obtain ⟨n, h, hget, hpx, hbef⟩ := ih x hx
      refine ⟨n + 1, Nat.succ_lt_succ h, by simpa using hget, hpx, ?_⟩
      intro m hm
      cases m with
      | zero => simpa using ha
      | succ m =>
        have := hbef m (Nat.lt_of_succ_lt_succ hm)
        simpa using this

/-- Any successful score table has exactly the nine configured category names
as keys, in configuration declaration order. -/
theorem category_scores_keys (e : ExifData) (cfg : RuleConfig) (scores : List (String × ℚ))
    (hok : category_scores e cfg = .ok scores) :
    scores.map Prod.fst
      = ["Portrait", "Landscape", "Street", "Event", "Wildlife", "Sports", "Macro",
         "Architecture", "Night"] := by
  unfold category_scores at hok
  dsimp only at hok
  repeat' split at hok
  all_goals first
    | exact Except.noConfusion hok
    | (injection hok with h; rw [← h]; rfl)

/-- Claim C2: whenever the scoring engine produces a score table, a maximum
strictly below the confidence threshold 3.0 classifies as Uncategorized
regardless of which category leads; otherwise the returned category's score
equals the maximum. -/
theorem c2_confidence_threshold (e : ExifData) (cfg : RuleConfig) (scores : List (String × ℚ))
    (hok : category_scores e cfg = .ok scores) :
    (maxScore scores < 3 → analyze_photo_for_category e cfg = .ok "Uncategorized") ∧
    (3 ≤ maxScore scores → ∃ c, analyze_photo_for_category e cfg = .ok c ∧
      (c, maxScore scores) ∈ scores) := by
  have hkeys := category_scores_keys e cfg scores hok
  have hne : scores ≠ [] := by
    intro h
    rw [h] at hkeys
    simp at hkeys
  constructor
  · intro hlt
    unfold analyze_photo_for_category
    rw [hok]
    unfold select_category
    simp [hlt]
  · intro hge
    have hnlt : ¬ maxScore scores < 3 := not_lt.mpr hge
    obtain ⟨p, hp, hpe⟩ := maxScore_attained scores hne
    have hsome : (scores.find? (fun q => decide (q.2 = maxScore scores))).isSome := by
      rw [List.find?_isSome]
      exact ⟨p, hp, by simp [hpe]⟩
    obtain ⟨q, hq⟩ := Option.isSome_iff_exists.mp hsome
    have hq2 : q.2 = maxScore scores := by simpa using List.find?_some hq
    refine ⟨q.1, ?_, ?_⟩
    · unfold analyze_photo_for_category
      rw [hok]
      unfold select_category
      simp [hnlt, hq]
    · have hmem := List.mem_of_find?_eq_some hq
      rw [← hq2]
      simpa using hmem

theorem c2_confidence_threshold_witness :
    category_scores lowMaxExif defaultConfig
      = .ok [("Portrait", 0), ("Landscape", 0), ("Street", 0), ("Event", 0), ("Wildlife", 0),
             ("Sports", 0), ("Macro", 0), ("Architecture", 0), ("Night", 0)] ∧
    maxScore [("Portrait", 0), ("Landscape", 0), ("Street", 0), ("Event", 0), ("Wildlife", 0),
              ("Sports", 0), ("Macro", 0), ("Architecture", 0), ("Night", 0)] < 3 ∧
    analyze_photo_for_category lowMaxExif defaultConfig = .ok "Uncategorized" := by
  refine ⟨by decide, by decide, ?_⟩
  exact (c2_confidence_threshold lowMaxExif defaultConfig
    [("Portrait", 0), ("Landscape", 0), ("Street", 0), ("Event", 0), ("Wildlife", 0),
     ("Sports", 0), ("Macro", 0), ("Architecture", 0), ("Night", 0)] (by decide)).1 (by decide)

/-- Claim C1: whenever the scoring engine produces a score table whose maximum
is at or above the threshold and at least two categories share it, the
classifier returns the category at the first table position achieving the
maximum — the table being in configuration declaration order. -/
theorem c1_tie_break_first_in_order (e : ExifData) (cfg : RuleConfig) (scores : List (String × ℚ))
    (hok : category_scores e cfg = .ok scores)
    (hthr : 3 ≤ maxScore scores)
    (hties : 2 ≤ (scores.filter (fun p => decide (p.2 = maxScore scores))).length) :
    ∃ n, ∃ h : n < scores.length,
      analyze_photo_for_category e cfg = .ok (scores.get ⟨n, h⟩).1 ∧
      (scores.get ⟨n, h⟩).2 = maxScore scores ∧
      ∀ m (hm : m < n), (scores.get ⟨m, hm.trans h⟩).2 ≠ maxScore scores := by
  have hnlt : ¬ maxScore scores < 3 := not_lt.mpr hthr
  have hfne : scores.filter (fun p => decide (p.2 = maxScore scores)) ≠ [] := by
    intro h
    rw [h] at hties
    simp at hties
  obtain ⟨x, hx⟩ := List.exists_mem_of_ne_nil _ hfne
  rw [List.mem_filter] at hx
  have hsome : (scores.find? (fun q => decide (q.2 = maxScore scores))).isSome := by
    rw [List.find?_isSome]
    exact ⟨x, hx.1, hx.2⟩
  obtain ⟨q, hq⟩ := Option.isSome_iff_exists.mp hsome
  obtain ⟨n, h, hget, hqp, hbef⟩ := find?_first _ scores q hq
  refine ⟨n, h, ?_, ?_, ?_⟩
  · unfold analyze_photo_for_category
    rw [hok]
    unfold select_category
    simp [hnlt, hq]
    exact congrArg Prod.fst hget.symm
  · rw [hget]
    simpa using hqp
  · intro m hm
    have := hbef m hm
    simpa using this

theorem c1_tie_break_witness :
    analyze_photo_for_category tieExif tieConfig = .ok "Portrait" ∧
    (∃ n, ∃ h : n < ([("Portrait", (5:ℚ)), ("Landscape", 5), ("Street", 0), ("Event", 0),
        ("Wildlife", 0), ("Sports", 0), ("Macro", 0), ("Architecture", 3),
        ("Night", 0)]).length,
      analyze_photo_for_category tieExif tieConfig
        = .ok (([("Portrait", (5:ℚ)), ("Landscape", 5), ("Street", 0), ("Event", 0),
            ("Wildlife", 0), ("Sports", 0), ("Macro", 0), ("Architecture", 3),
            ("Night", 0)]).get ⟨n, h⟩).1 ∧
      (([("Portrait", (5:ℚ)), ("Landscape", 5), ("Street", 0), ("Event", 0),
          ("Wildlife", 0), ("Sports", 0), ("Macro", 0), ("Architecture", 3),
          ("Night", 0)]).get ⟨n, h⟩).2
        = maxScore [("Portrait", (5:ℚ)), ("Landscape", 5), ("Street", 0), ("Event", 0),
            ("Wildlife", 0), ("Sports", 0), ("Macro", 0), ("Architecture", 3), ("Night", 0)] ∧
      ∀ m (hm : m < n),
        (([("Portrait", (5:ℚ)), ("Landscape", 5), ("Street", 0), ("Event", 0),
            ("Wildlife", 0), ("Sports", 0), ("Macro", 0), ("Architecture", 3),
            ("Night", 0)]).get ⟨m, hm.trans h⟩).2
          ≠ maxScore [("Portrait", (5:ℚ)), ("Landscape", 5), ("Street", 0), ("Event", 0),
              ("Wildlife", 0), ("Sports", 0), ("Macro", 0), ("Architecture", 3), ("Night", 0)]) := by
  refine ⟨by decide, ?_⟩
  exact c1_tie_break_first_in_order tieExif tieConfig
    [("Portrait", (5:ℚ)), ("Landscape", 5), ("Street", 0), ("Event", 0), ("Wildlife", 0),
     ("Sports", 0), ("Macro", 0), ("Architecture", 3), ("Night", 0)]
    (by decide) (by decide) (by decide)

theorem getStrOrRaise_ok (v : PyVal) (h : isStringish v = true) :
    ∃ s, getStrOrRaise v = .ok s := by
  cases v with
  | vNone => exact ⟨"", rfl⟩
  | vStr s => exact ⟨s, rfl⟩
  | vNum q => simp [isStringish] at h

theorem getLowerOrRaise_ok (v : PyVal) (h : isStringish v = true) :
    ∃ s, getLowerOrRaise v = .ok s := by
  cases v with
  | vNone => exact ⟨"", rfl⟩
  | vStr s => exact ⟨lowerStr s, rfl⟩
  | vNum q => simp [isStringish] at h

theorem lens_lower_ok (a b : PyVal) (ha : isStringish a = true) (hb : isStringish b = true) :
    ∃ s, getLowerOrRaise (pyOr (pyGetD a (.vStr "")) (pyGetD b (.vStr ""))) = .ok s := by
  cases a with
  | vNum q => simp [isStringish] at ha
  | vNone =>
    cases b with
    | vNum q => simp [isStringish] at hb
    | vNone => exact ⟨"", rfl⟩
    | vStr t =>
      unfold pyGetD pyOr
      split <;> exact ⟨_, rfl⟩
  | vStr s =>
    cases b with
    | vNum q =>
      unfold pyGetD pyOr
      split
      · exact ⟨_, rfl⟩
      · simp [isStringish] at hb
    | vNone =>
      unfold pyGetD pyOr
      split <;> exact ⟨_, rfl⟩
    | vStr t =>
      unfold pyGetD pyOr
      split <;> exact ⟨_, rfl⟩

theorem subjectBonus_ok (v : PyVal) (h : isStringish v = true) (maxDist w : ℚ) :
    ∃ q, subjectBonus v maxDist w = .ok q := by
  cases v with
  | vNone => exact ⟨0, rfl⟩
  | vStr s => exact ⟨_, rfl⟩
  | vNum q => simp [isStringish] at h

theorem flashBonus_ok (v : PyVal) (h : isStringish v = true) (w : ℚ) :
    ∃ q, flashBonus v w = .ok q := by
  cases v with
  | vNone => exact ⟨0, rfl⟩
  | vStr s => exact ⟨_, rfl⟩
  | vNum q => simp [isStringish] at h

/-- The selection step always yields Uncategorized or one of the table keys. -/
theorem select_category_mem (scores : List (String × ℚ)) :
    select_category scores = "Uncategorized" ∨ select_category scores ∈ scores.map Prod.fst := by
  unfold select_category
  by_cases hm : maxScore scores < 3
  · left
    simp [hm]
  · cases hfind : scores.find? (fun p => decide (p.2 = maxScore scores)) with
    | none =>
      left
      simp [hm, hfind]
    | some p =>
      right
      simp only [hm, if_false, hfind]
      exact List.mem_map.mpr ⟨p, List.mem_of_find?_eq_some hfind, rfl⟩

/-- Claim C5, counterexample: a record whose FocalLength key holds a JSON
number makes the classifier raise AttributeError at the `.replace(' mm','')`
call, so it is not total over arbitrary EXIF values. -/
theorem c5_not_total_counterexample :
    analyze_photo_for_category badFocalExif defaultConfig = .error .attributeError := by decide

/-- Claim C5 as amended: whenever the six fields the code applies string
operations to (FocalLength, SceneMode, LensModel, LensSpec, SubjectDistance,
Flash) are absent or strings — FNumber, ISO and ShutterSpeed may hold
arbitrary, even malformed, values — the classifier terminates normally and
returns one of the nine configured category names or Uncategorized. -/
theorem c5_amended_total_on_strings (e : ExifData) (cfg : RuleConfig)
    (h1 : isStringish e.focalLength = true) (h2 : isStringish e.sceneMode = true)
    (h3 : isStringish e.lensModel = true) (h4 : isStringish e.lensSpec = true)
    (h5 : isStringish e.subjectDistance = true) (h6 : isStringish e.flash = true) :
    ∃ c, analyze_photo_for_category e cfg = .ok c ∧
      c ∈ ["Portrait", "Landscape", "Street", "Event", "Wildlife", "Sports", "Macro",
           "Architecture", "Night", "Uncategorized"] := by
  obtain ⟨focalRaw, hfo⟩ := getStrOrRaise_ok e.focalLength h1
  obtain ⟨sceneLower, hsc⟩ := getLowerOrRaise_ok e.sceneMode h2
  obtain ⟨lensLower, hle⟩ := lens_lower_ok e.lensModel e.lensSpec h3 h4
  obtain ⟨subjB, hsu⟩ := subjectBonus_ok e.subjectDistance h5 cfg.macSubjectDistanceMax cfg.macWeight
  obtain ⟨flashB, hfl⟩ := flashBonus_ok e.flash h6 cfg.nightWeight
  obtain ⟨scores, hok⟩ : ∃ scores, category_scores e cfg = .ok scores := by
    unfold category_scores
    rw [hfo, hsc, hle, hsu, hfl]
    exact ⟨_, rfl⟩
  refine ⟨select_category scores, ?_, ?_⟩
  · unfold analyze_photo_for_category
    rw [hok]
  · have hkeys := category_scores_keys e cfg scores hok
    rcases select_category_mem scores with h | h
    · rw [h]
      simp
    · rw [hkeys] at h
      simp only [List.mem_cons, List.not_mem_nil, or_false] at h ⊢
      tauto

theorem c5_amended_witness :
    isStringish wildlifeExif.focalLength = true ∧
    isStringish wildlifeExif.sceneMode = true ∧
    isStringish wildlifeExif.lensModel = true ∧
    isStringish wildlifeExif.lensSpec = true ∧
    isStringish wildlifeExif.subjectDistance = true ∧
    isStringish wildlifeExif.flash = true ∧
    (∃ c, analyze_photo_for_category wildlifeExif defaultConfig = .ok c ∧
      c ∈ ["Portrait", "Landscape", "Street", "Event", "Wildlife", "Sports", "Macro",
           "Architecture", "Night", "Uncategorized"]) :=
  ⟨by decide, by decide, by decide, by decide, by decide, by decide,
   c5_amended_total_on_strings wildlifeExif defaultConfig
     (by decide) (by decide) (by decide) (by decide) (by decide) (by decide)⟩

/-- Claim C6: the cache key is the filename stem, not the full path — two
distinct files with equal stems share one cache entry, and a record cached
for the first is served for the second (here record 7, cached for
/a/DSC_0001.ARW, is returned for /b/DSC_0001.ARW instead of its own fresh
record 9). -/
theorem c6_stem_collision :
    (⟨"/a", "DSC_0001.ARW"⟩ : PyPath) ≠ ⟨"/b", "DSC_0001.ARW"⟩ ∧
    pathStr ⟨"/a", "DSC_0001.ARW"⟩ ≠ pathStr ⟨"/b", "DSC_0001.ARW"⟩ ∧
    cacheFilePath "/cache" ⟨"/a", "DSC_0001.ARW"⟩
      = cacheFilePath "/cache" ⟨"/b", "DSC_0001.ARW"⟩ ∧
    (get_exif_data_cached cacheEnvA 50 (some 9) true "/cache" ⟨"/b", "DSC_0001.ARW"⟩).result
      = some 7 := by decide

/-- Claim C7: a cached record is returned exactly when an entry exists, its
stored mtime is strictly newer than the file's mtime, and it loads; a missing
entry, an unreadable entry or a stale entry all degrade to a fresh
extraction; and a failing cache write never changes the returned record. -/
theorem c7_cache_hit_validity {α : Type} (entries : String → Option (ℚ × Option α))
    (fileMtime : ℚ) (fresh : Option α) (writeOk : Bool) (cacheDir : String) (filepath : PyPath) :
    (∀ mt r, entries (cacheFilePath cacheDir filepath) = some (mt, some r) → fileMtime < mt →
      get_exif_data_cached entries fileMtime fresh writeOk cacheDir filepath
        = ⟨some r, false, false⟩) ∧
    (entries (cacheFilePath cacheDir filepath) = none →
      get_exif_data_cached entries fileMtime fresh writeOk cacheDir filepath
        = ⟨fresh, true, fresh.isSome && writeOk⟩) ∧
    (∀ mt, entries (cacheFilePath cacheDir filepath) = some (mt, none) →
      get_exif_data_cached entries fileMtime fresh writeOk cacheDir filepath
        = ⟨fresh, true, fresh.isSome && writeOk⟩) ∧
    (∀ mt loaded, entries (cacheFilePath cacheDir filepath) = some (mt, loaded) →
      ¬ fileMtime < mt →
      get_exif_data_cached entries fileMtime fresh writeOk cacheDir filepath
        = ⟨fresh, true, fresh.isSome && writeOk⟩) ∧
    (get_exif_data_cached entries fileMtime fresh writeOk cacheDir filepath).result
      = (get_exif_data_cached entries fileMtime fresh true cacheDir filepath).result := by
  unfold get_exif_data_cached
  refine ⟨?_, ?_, ?_, ?_, ?_⟩
  · intro mt r he hlt
    rw [he]
    simp [hlt]
  · intro he
    rw [he]
  · intro mt he
    rw [he]
    by_cases hlt : fileMtime < mt <;> simp [hlt]
  · intro mt loaded he hnlt
    rw [he]
    cases loaded <;> simp [hnlt]
  · cases he : entries (cacheFilePath cacheDir filepath) with
    | none => rfl
    | some pr =>
      obtain ⟨mt, loaded⟩ := pr
      by_cases hlt : fileMtime < mt
      · cases loaded with
        | none => simp [hlt]
        | some r => simp [hlt]
      · simp [hlt]

theorem c7_cache_hit_validity_witness :
    get_exif_data_cached cacheEnvA 50 (some 9) true "/cache" ⟨"/a", "DSC_0001.ARW"⟩
      = ⟨some 7, false, false⟩ ∧
    get_exif_data_cached cacheEnvA 200 (some 9) false "/cache" ⟨"/a", "DSC_0001.ARW"⟩
      = ⟨some 9, true, false⟩ :=
  ⟨(c7_cache_hit_validity cacheEnvA 50 (some 9) true "/cache" ⟨"/a", "DSC_0001.ARW"⟩).1
      100 7 (by decide) (by decide),
   (c7_cache_hit_validity cacheEnvA 200 (some 9) false "/cache" ⟨"/a", "DSC_0001.ARW"⟩).2.2.2.1
      100 (some 7) (by decide) (by decide)⟩

/-- Claim C10: when a photo's computed target path already exists on the
filesystem, the organizer performs no copy and no move for it, leaves the
filesystem (hence the source file and the existing target) unchanged, does
not count it, and goes on to process the remaining photos from the same
state. -/
theorem c10_never_overwrites (output_dir : String) (move_files : Bool) (fs0 : List String)
    (xs ys : List PhotoRec) (photo : PhotoRec)
    (hex : (organize_photos xs output_dir move_files fs0).fs.contains (targetPath output_dir photo)
      = true) :
    organizeStep output_dir move_files (organize_photos xs output_dir move_files fs0) photo
      = organize_photos xs output_dir move_files fs0 ∧
    organize_photos (xs ++ photo :: ys) output_dir move_files fs0
      = ys.foldl (organizeStep output_dir move_files) (organize_photos xs output_dir move_files fs0) := by
  have hstep : ∀ st : OrgState, st.fs.contains (targetPath output_dir photo) = true →
      organizeStep output_dir move_files st photo = st := by
    intro st h
    have hmem : targetPath output_dir photo ∈ st.fs := by simpa using h
    unfold organizeStep
    cases move_files <;> simp [hmem]
  refine ⟨hstep _ hex, ?_⟩
  unfold organize_photos
  rw [List.foldl_append, List.foldl_cons]
  unfold organize_photos at hstep hex
  rw [hstep _ hex]

theorem c10_never_overwrites_witness :
    (organize_photos [] "/out" false orgFs0).fs.contains (targetPath "/out" orgPhotoA) = true ∧
    organizeStep "/out" false (organize_photos [] "/out" false orgFs0) orgPhotoA
      = organize_photos [] "/out" false orgFs0 ∧
    organize_photos ([] ++ orgPhotoA :: [orgPhotoB]) "/out" false orgFs0
      = [orgPhotoB].foldl (organizeStep "/out" false) (organize_photos [] "/out" false orgFs0) :=
  ⟨by decide,
   (c10_never_overwrites "/out" false orgFs0 [] [orgPhotoB] orgPhotoA (by decide)).1,
   (c10_never_overwrites "/out" false orgFs0 [] [orgPhotoB] orgPhotoA (by decide)).2⟩

/-- After any number of steps bounded by 4 processed records, no burst has
been emitted and the pending run has at most that many members (a pending
run can only start from the second processed record onward). -/
theorem burst_fold_small (s : List Photo) :
    ∀ (l : List Photo) (c : ℕ) (st : BurstState), st.bursts = [] → st.cur.length ≤ c →
      (c = 0 → st.last = 0) → c + l.length ≤ 4 →
      (l.foldl (burstStep s) st).bursts = [] ∧
      (l.foldl (burstStep s) st).cur.length ≤ c + l.length := by
  intro l
  induction l with
  | nil =>
    intro c st h1 h2 _ _
    exact ⟨h1, by simpa using h2⟩
  | cons p l ih =>
    intro c st h1 h2 h3 h4
    have h4a : c + l.length + 1 ≤ 4 := by
      rw [List.length_cons] at h4
      omega
    have hstep : (burstStep s st p).bursts = [] ∧ (burstStep s st p).cur.length ≤ c + 1 := by
      unfold burstStep
      by_cases hcond : st.last ≠ 0 ∧ p.ts - st.last ≤ 1
      · rw [if_pos hcond]
        refine ⟨h1, ?_⟩
        have hc1 : 1 ≤ c := by
          by_contra hc
          have hc0 : c = 0 := by omega
          exact hcond.1 (h3 hc0)
        by_cases hemp : st.cur.isEmpty
        · rw [if_pos hemp]
          cases findPrev s p with
          | some q =>
            simp only [List.length_cons, List.length_nil]
            omega
          | none =>
            simp only [List.length_cons, List.length_nil]
            omega
        · rw [if_neg hemp]
          simp only [List.length_append, List.length_cons, List.length_nil]
          omega
      · rw [if_neg hcond]
        have hnoemit : ¬ 5 ≤ st.cur.length := by omega
        rw [if_neg hnoemit]
        exact ⟨h1, by simp⟩
    have hrec := ih (c + 1) (burstStep s st p) hstep.1 hstep.2 (by omega) (by omega)
    refine ⟨hrec.1, ?_⟩
    rw [List.foldl_cons, List.length_cons]
    calc (l.foldl (burstStep s) (burstStep s st p)).cur.length
        ≤ (c + 1) + l.length := hrec.2
      _ = c + (l.length + 1) := by omega

/-- Any input of at most 4 records never yields a burst group. -/
theorem small_input_no_burst (photos : List Photo) (hlen : photos.length ≤ 4) :
    analyze_photo_sequence photos = [] := by
  unfold analyze_photo_sequence
  by_cases hemp : photos.isEmpty
  · rw [if_pos hemp]
  · rw [if_neg hemp]
    have hslen : (List.insertionSort photoLe photos).length ≤ 4 := by
      rw [List.length_insertionSort]
      exact hlen
    obtain ⟨hb, hc⟩ := burst_fold_small (List.insertionSort photoLe photos)
      (List.insertionSort photoLe photos) 0 ⟨[], [], 0⟩ rfl (by simp) (fun _ => rfl)
      (by simpa using hslen)
    unfold finishBursts
    rw [if_neg (by omega), hb]

/-- Claim C3: the six-record input with timestamps 100, 100.5, 101, 101.4,
101.8, 102.3 and window 1s yields exactly one burst group holding all six
records; the orchestrator then overwrites every member's category to Event
whatever its scored category was; and no input of 4 or fewer records ever
yields a group (minimum group size 5). -/
theorem c3_burst_detection :
    analyze_photo_sequence sixBurstPhotos = [sixBurstPhotos] ∧
    (∀ p ∈ promoteBursts sixBurstPhotos (analyze_photo_sequence sixBurstPhotos),
      p.category = "Event") ∧
    (∀ photos : List Photo, photos.length ≤ 4 → analyze_photo_sequence photos = []) :=
  ⟨by decide, by decide, small_input_no_burst⟩

theorem c3_burst_detection_witness :
    fourBurstPhotos.length ≤ 4 ∧ analyze_photo_sequence fourBurstPhotos = [] :=
  ⟨by decide, c3_burst_detection.2.2 fourBurstPhotos (by decide)⟩

theorem charsLe_total : ∀ (as bs : List Char), charsLe as bs = true ∨ charsLe bs as = true := by
  intro as
  induction as with
  | nil => intro bs; left; rfl
  | cons a as ih =>
    intro bs
    cases bs with
    | nil => right; rfl
    | cons b bs =>
      rcases Nat.lt_trichotomy a.toNat b.toNat with h | h | h
      · left; simp [charsLe, h]
      · rcases ih bs with h2 | h2
        · left; simp [charsLe, h, h2]
        · right; simp [charsLe, h.symm, h2]
      · right; simp [charsLe, h]

theorem charsLe_trans : ∀ (as bs cs : List Char),
    charsLe as bs = true → charsLe bs cs = true → charsLe as cs = true := by
  intro as
  induction as with
  | nil => intro bs cs _ _; rfl
  | cons a as ih =>
    intro bs cs h1 h2
    cases bs with
    | nil => simp [charsLe] at h1
    | cons b bs =>
      cases cs with
      | nil => simp [charsLe] at h2
      | cons c cs =>
        simp only [charsLe, Bool.or_eq_true, Bool.and_eq_true, decide_eq_true_eq,
          beq_iff_eq] at h1 h2 ⊢
        rcases h1 with h1 | ⟨h1e, h1r⟩
        · rcases h2 with h2 | ⟨h2e, h2r⟩
          · left; omega
          · left; omega
        · rcases h2 with h2 | ⟨h2e, h2r⟩
          · left; omega
          · right; exact ⟨by omega, ih bs cs h1r h2r⟩

theorem photoLe_total : ∀ a b : Photo, photoLe a b ∨ photoLe b a := by
  intro a b
  rcases lt_trichotomy a.ts b.ts with h | h | h
  · left; exact Or.inl h
  · rcases charsLe_total a.filename.data b.filename.data with h2 | h2
    · left; exact Or.inr ⟨h, h2⟩
    · right; exact Or.inr ⟨h.symm, h2⟩
  · right; exact Or.inl h

theorem photoLe_trans : ∀ a b c : Photo, photoLe a b → photoLe b c → photoLe a c := by
  intro a b c h1 h2
  rcases h1 with h1 | ⟨h1e, h1r⟩
  · rcases h2 with h2 | ⟨h2e, h2r⟩
    · exact Or.inl (h1.trans h2)
    · exact Or.inl (by rw [← h2e]; exact h1)
  · rcases h2 with h2 | ⟨h2e, h2r⟩
    · exact Or.inl (by rw [h1e]; exact h2)
    · exact Or.inr ⟨h1e.trans h2e, charsLe_trans _ _ _ h1r h2r⟩

theorem photoLe_ts_le {a b : Photo} (h : photoLe a b) : a.ts ≤ b.ts := by
  rcases h with h | ⟨h, _⟩
  · exact le_of_lt h
  · exact le_of_eq h

theorem getLastD_mem_cons : ∀ (l : List Photo) (a : Photo), l.getLastD a ∈ a :: l := by
  intro l
  induction l with
  | nil => intro a; simp [List.getLastD]
  | cons b l ih =>
    intro a
    rw [List.getLastD_cons]
    exact List.mem_cons_of_mem a (ih b)

theorem findPrevAux_split (target : Photo) (suf : List Photo) :
    ∀ (pre : List Photo) (prev : Photo), target ∉ pre →
      findPrevAux prev target (pre ++ target :: suf) = some (pre.getLastD prev) := by
  intro pre
  induction pre with
  | nil =>
    intro prev _
    simp [findPrevAux, List.getLastD]
  | cons b pre ih =>
    intro prev hnot
    have hb : ¬ (b = target) := by
      intro h
      exact hnot (by rw [h]; exact List.mem_cons_self target pre)
    calc findPrevAux prev target ((b :: pre) ++ target :: suf)
        = findPrevAux b target (pre ++ target :: suf) := by
          simp [findPrevAux, hb]
      _ = some (pre.getLastD b) := ih b (fun h => hnot (List.mem_cons_of_mem b h))
      _ = some ((b :: pre).getLastD prev) := by rw [List.getLastD_cons]

theorem findPrev_split (a target : Photo) (pre2 suf : List Photo)
    (hnot : target ∉ a :: pre2) :
    findPrev ((a :: pre2) ++ target :: suf) target = some (pre2.getLastD a) := by
  show findPrevAux a target (pre2 ++ target :: suf) = some (pre2.getLastD a)
  exact findPrevAux_split target suf pre2 a (fun h => hnot (List.mem_cons_of_mem a h))

/-- Invariant of the burst-detection scan over a sorted, duplicate-free,
nonnegative-timestamp record list: no record of an emitted or pending burst
has an unknown (zero) timestamp — the within-window test requires a nonzero
`last_timestamp`, which sortedness makes at most the current timestamp. -/
theorem burst_fold_inv (s : List Photo) (hnd : s.Nodup) (hnn : ∀ p ∈ s, 0 ≤ p.ts)
    (hsort : List.Pairwise photoLe s) :
    ∀ (suf pre : List Photo) (st : BurstState), s = pre ++ suf →
      (∀ g ∈ st.bursts, ∀ p ∈ g, p.ts ≠ 0) →
      (∀ p ∈ st.cur, p.ts ≠ 0) →
      st.last = ((pre.getLast?).map Photo.ts).getD 0 →
      (∀ g ∈ (suf.foldl (burstStep s) st).bursts, ∀ p ∈ g, p.ts ≠ 0) ∧
      (∀ p ∈ (suf.foldl (burstStep s) st).cur, p.ts ≠ 0) := by
  intro suf
  induction suf with
  | nil =>
    intro pre st _ h1 h2 _
    exact ⟨h1, h2⟩
  | cons p suf ih =>
    intro pre st heq h1 h2 h3
    rw [List.foldl_cons]
    refine ih (pre ++ [p]) (burstStep s st p) ?_ ?_ ?_ ?_
    · rw [heq]
      simp
    · intro g hg q hq
      unfold burstStep at hg
      by_cases hcond : st.last ≠ 0 ∧ p.ts - st.last ≤ 1
      · rw [if_pos hcond] at hg
        exact h1 g hg q hq
      · rw [if_neg hcond] at hg
        dsimp only at hg
        by_cases hemit : 5 ≤ st.cur.length
        · rw [if_pos hemit] at hg
          rcases List.mem_append.mp hg with hg2 | hg2
          · exact h1 g hg2 q hq
          · rw [List.mem_singleton] at hg2
            subst hg2
            exact h2 q hq
        · rw [if_neg hemit] at hg
          exact h1 g hg q hq
    · intro q hq
      unfold burstStep at hq
      by_cases hcond : st.last ≠ 0 ∧ p.ts - st.last ≤ 1
      · rw [if_pos hcond] at hq
        dsimp only at hq
        have hprene : pre ≠ [] := by
          intro hpre
          rw [hpre] at h3
          simp at h3
          exact hcond.1 h3
        obtain ⟨a, pre2, rfl⟩ := List.exists_cons_of_ne_nil hprene
        have hlastm : (pre2.getLastD a) ∈ a :: pre2 := getLastD_mem_cons pre2 a
        have hlast3 : st.last = (pre2.getLastD a).ts := by
          rw [h3, List.getLast?_cons]
          simp [List.getLastD_eq_getLast?]
        have hql : (pre2.getLastD a).ts ≠ 0 := by
          rw [← hlast3]
          exact hcond.1
        have hge : photoLe (pre2.getLastD a) p := by
          have hpw := (List.pairwise_append.mp (heq ▸ hsort)).2.2
          exact hpw _ hlastm p (List.mem_cons_self p suf)
        have hts : 0 < (pre2.getLastD a).ts := by
          have hmem : (pre2.getLastD a) ∈ s := by
            rw [heq]
            exact List.mem_append_left _ hlastm
          exact lt_of_le_of_ne (hnn _ hmem) (Ne.symm hql)
        have hpts : 0 < p.ts := lt_of_lt_of_le hts (photoLe_ts_le hge)
        by_cases hemp : st.cur.isEmpty
        · rw [if_pos hemp] at hq
          have hpnot : p ∉ a :: pre2 := by
            rw [heq] at hnd
            have hdis := (List.nodup_append.mp hnd).2.2
            intro hmem
            exact hdis hmem (List.mem_cons_self p suf)
          rw [heq] at hq
          rw [findPrev_split a p pre2 suf hpnot] at hq
          simp only [List.mem_cons, List.mem_singleton, List.not_mem_nil, or_false] at hq
          rcases hq with hq | hq
          · rw [hq]
            exact hql
          · rw [hq]
            exact ne_of_gt hpts
        · rw [if_neg hemp] at hq
          rcases List.mem_append.mp hq with hq2 | hq2
          · exact h2 q hq2
          · rw [List.mem_singleton] at hq2
            subst hq2
            exact ne_of_gt hpts
      · rw [if_neg hcond] at hq
        simp at hq
    · have hlast : (burstStep s st p).last = p.ts := by
        unfold burstStep
        split <;> rfl
      rw [hlast, List.getLast?_concat]
      rfl

/-- Claim C4: over any duplicate-free input whose capture timestamps are
nonnegative (epoch seconds, 0 = unknown), no record with timestamp 0 is ever
a member of an emitted burst group — unknown-timestamp records never count
as within-window of any other record and so cannot bridge runs. -/
theorem c4_zero_timestamp_never_in_burst (photos : List Photo)
    (hnd : photos.Nodup) (hnn : ∀ p ∈ photos, 0 ≤ p.ts) :
    ∀ g ∈ analyze_photo_sequence photos, ∀ p ∈ g, p.ts ≠ 0 := by
  unfold analyze_photo_sequence
  by_cases hemp : photos.isEmpty
  · rw [if_pos hemp]
    intro g hg
    simp at hg
  · rw [if_neg hemp]
    intro g hg q hq
    haveI : IsTotal Photo photoLe := ⟨photoLe_total⟩
    haveI : IsTrans Photo photoLe := ⟨photoLe_trans⟩
    have hperm := List.perm_insertionSort photoLe photos
    have hnd2 : (List.insertionSort photoLe photos).Nodup := hperm.symm.nodup hnd
    have hnn2 : ∀ p ∈ List.insertionSort photoLe photos, 0 ≤ p.ts :=
      fun p hp => hnn p (hperm.subset hp)
    have hsort : List.Pairwise photoLe (List.insertionSort photoLe photos) :=
      List.sorted_insertionSort photoLe photos
    obtain ⟨hb, hc⟩ := burst_fold_inv (List.insertionSort photoLe photos) hnd2 hnn2 hsort
      (List.insertionSort photoLe photos) [] ⟨[], [], 0⟩ rfl (by simp) (by simp) rfl
    unfold finishBursts at hg
    dsimp only at hg
    split at hg
    · rcases List.mem_append.mp hg with hg2 | hg2
      · exact hb g hg2 q hq
      · rw [List.mem_singleton] at hg2
        subst hg2
        exact hc q hq
    · exact hb g hg q hq

theorem c4_zero_timestamp_witness :
    mixedZeroPhotos.Nodup ∧ (∀ p ∈ mixedZeroPhotos, 0 ≤ p.ts) ∧
    (∀ g ∈ analyze_photo_sequence mixedZeroPhotos, ∀ p ∈ g, p.ts ≠ 0) :=
  ⟨by decide, by decide,
   c4_zero_timestamp_never_in_burst mixedZeroPhotos (by decide) (by decide)⟩

theorem chunksGo_nil {β : Type} (bs : ℕ) : ∀ fuel, chunksGo bs fuel ([] : List β) = [] := by
  intro fuel
  cases fuel <;> rfl

/-- A nonempty input no longer than the batch size forms a single batch. -/
theorem chunks_single {β : Type} (bs : ℕ) (l : List β) (_hbs : 0 < bs) (hne : l ≠ [])
    (hlen : l.length ≤ bs) : chunks bs l = [l] := by
  cases l with
  | nil => exact absurd rfl hne
  | cons x rest =>
    unfold chunks
    rw [List.length_cons]
    calc chunksGo bs (rest.length + 1) (x :: rest)
        = (x :: rest).take bs :: chunksGo bs rest.length ((x :: rest).drop bs) := rfl
      _ = (x :: rest) :: chunksGo bs rest.length [] := by
          rw [List.take_of_length_le hlen, List.drop_eq_nil_of_le hlen]
      _ = [x :: rest] := by rw [chunksGo_nil]

theorem zip_self_map {P α : Type} (g : P → α) (l : List P) :
    l.zip (l.map g) = l.map (fun a => (a, g a)) := by
  have := List.zip_map' id g l
  simpa using this

theorem filterMap_pair_some {P α : Type} (recf : P → α) :
    ∀ l : List P, (l.map (fun a => (a, some (recf a)))).filterMap
        (fun pe : P × Option α => pe.2.map (fun r => (pe.1, r)))
      = l.map (fun a => (a, recf a)) := by
  intro l
  induction l with
  | nil => rfl
  | cons x l ih =>
    simp only [List.map_cons, List.filterMap_cons, Option.map_some]
    rw [ih]
    rfl

/-- Claim C8: when the tool processes a whole batch with exit status 0 and
produces, for exactly one file, a falsy entry (and the entries stay aligned
with the batch), only that file is dropped from the result and every other
file of the batch is paired with its own record. -/
theorem c8_batch_tolerates_bad_file {P α : Type} (tool : List P → ToolResult α)
    (fs1 fs2 : List P) (bad : P) (recf : P → α) (bs : ℕ)
    (hbs : 0 < bs) (hlen : (fs1 ++ bad :: fs2).length ≤ bs)
    (htool : tool (fs1 ++ bad :: fs2)
      = .ok (fs1.map (fun f => some (recf f)) ++ none :: fs2.map (fun f => some (recf f))))
    (hbad1 : bad ∉ fs1) (hbad2 : bad ∉ fs2) :
    get_exif_data_batch tool (fs1 ++ bad :: fs2) bs
      = fs1.map (fun f => (f, recf f)) ++ fs2.map (fun f => (f, recf f)) ∧
    ∀ r, (bad, r) ∉ get_exif_data_batch tool (fs1 ++ bad :: fs2) bs := by
  have hne : fs1 ++ bad :: fs2 ≠ [] := by
    intro h
    have := congrArg List.length h
    simp at this
  have hresult : get_exif_data_batch tool (fs1 ++ bad :: fs2) bs
      = fs1.map (fun f => (f, recf f)) ++ fs2.map (fun f => (f, recf f)) := by
    unfold get_exif_data_batch
    rw [chunks_single bs _ hbs hne hlen]
    simp only [List.foldl_cons, List.foldl_nil]
    rw [htool]
    dsimp only
    rw [List.zip_append (by simp), List.zip_cons_cons, zip_self_map, zip_self_map,
      List.filterMap_append, List.filterMap_cons]
    rw [filterMap_pair_some, filterMap_pair_some]
    simp
  refine ⟨hresult, ?_⟩
  intro r hmem
  rw [hresult] at hmem
  rcases List.mem_append.mp hmem with h | h
  · obtain ⟨f, hf, hfe⟩ := List.mem_map.mp h
    have hfb : f = bad := congrArg Prod.fst hfe
    exact hbad1 (hfb ▸ hf)
  · obtain ⟨f, hf, hfe⟩ := List.mem_map.mp h
    have hfb : f = bad := congrArg Prod.fst hfe
    exact hbad2 (hfb ▸ hf)

theorem c8_batch_tolerates_bad_file_witness :
    (0 < 50) ∧ (([batchFileA] ++ batchFileBad :: [batchFileC]).length ≤ 50) ∧
    (batchTool ([batchFileA] ++ batchFileBad :: [batchFileC])
      = .ok ([batchFileA].map (fun f => some (batchRec f))
          ++ none :: [batchFileC].map (fun f => some (batchRec f)))) ∧
    (batchFileBad ∉ [batchFileA]) ∧ (batchFileBad ∉ [batchFileC]) ∧
    (get_exif_data_batch batchTool ([batchFileA] ++ batchFileBad :: [batchFileC]) 50
       = [batchFileA].map (fun f => (f, batchRec f))
         ++ [batchFileC].map (fun f => (f, batchRec f)) ∧
     ∀ r, (batchFileBad, r)
       ∉ get_exif_data_batch batchTool ([batchFileA] ++ batchFileBad :: [batchFileC]) 50) :=
  ⟨by decide, by decide, by decide, by decide, by decide,
   c8_batch_tolerates_bad_file batchTool [batchFileA] [batchFileC] batchFileBad batchRec 50
     (by decide) (by decide) (by decide) (by decide) (by decide)⟩

/-- Claim C9, counterexample: with two files of which the first fails
extraction terminally, a run interrupted after attempting N = 1 of M = 2
files leaves a processed set without the failed file (and no marker has been
written at all, since progress is saved only every 100 results), so the
resumed run processes both files — not the M − N = 1 the claim requires. -/
theorem c9_resume_counterexample :
    (process_with_progress resumeFiles [] resumeExtract true 1).saved = none ∧
    (process_with_progress resumeFiles [] resumeExtract true 1).processed = [] ∧
    (remainingFiles resumeFiles
        ((process_with_progress resumeFiles [] resumeExtract true 1).processed)).length
      ≠ 2 - 1 := by decide

theorem progStep_results {α : Type} (ex : PyPath → Option α) (pf : Bool) :
    ∀ (l : List PyPath) (st : ProgState α),
      (l.foldl (progStep ex pf) st).results = st.results ++ runExtract ex l := by
  intro l
  induction l with
  | nil => intro st; simp [runExtract]
  | cons f l ih =>
    intro st
    rw [List.foldl_cons, ih]
    cases hef : ex f with
    | none =>
      have hstep : progStep ex pf st f = st := by
        unfold progStep
        rw [hef]
      rw [hstep]
      simp [runExtract, List.filterMap_cons, hef]
    | some r =>
      have hstep : (progStep ex pf st f).results = st.results ++ [(f, r)] := by
        unfold progStep
        rw [hef]
      rw [hstep]
      simp [runExtract, List.filterMap_cons, hef]

theorem progStep_processed {α : Type} (ex : PyPath → Option α) (pf : Bool) :
    ∀ (l : List PyPath) (st : ProgState α),
      (l.foldl (progStep ex pf) st).processed
        = ((l.filter (fun f => (ex f).isSome)).map pathStr).foldl addToSet st.processed := by
  intro l
  induction l with
  | nil => intro st; rfl
  | cons f l ih =>
    intro st
    rw [List.foldl_cons, ih]
    cases hef : ex f with
    | none =>
      have hstep : progStep ex pf st f = st := by
        unfold progStep
        rw [hef]
      rw [hstep]
      simp [List.filter_cons, hef]
    | some r =>
      have hstep : (progStep ex pf st f).processed = addToSet st.processed (pathStr f) := by
        unfold progStep
        rw [hef]
      rw [hstep]
      simp [List.filter_cons, hef]

theorem foldl_addToSet_disjoint :
    ∀ (strs init : List String), strs.Nodup → (∀ x ∈ strs, x ∉ init) →
      strs.foldl addToSet init = init ++ strs := by
  intro strs
  induction strs with
  | nil => intro init _ _; simp
  | cons s strs ih =>
    intro init hnd hdis
    rw [List.foldl_cons]
    have h1 : addToSet init s = init ++ [s] := by
      unfold addToSet
      rw [if_neg (fun h => hdis s (List.mem_cons_self s strs) (List.elem_iff.mp h))]
    rw [h1, ih (init ++ [s]) hnd.of_cons ?_]
    · simp
    · intro x hx hmem
      rcases List.mem_append.mp hmem with hm | hm
      · exact hdis x (List.mem_cons_of_mem s hx) hm
      · rw [List.mem_singleton] at hm
        subst hm
        exact (List.nodup_cons.mp hnd).1 hx

/-- Claim C9 as amended: over path-distinct inputs, the in-memory processed
set after k loop iterations of a fresh run holds exactly the successfully
extracted files among the first k (terminal failures are not marked and are
re-attempted on resume); restarting from that set processes exactly the
files not in it, the two runs' records together equal an uninterrupted run's
records, and when all first k attempts succeeded the resumed run processes
exactly the remaining M − k files. -/
theorem c9_resume_amended {α : Type} (files : List PyPath) (extract : PyPath → Option α)
    (hPF : Bool) (k : ℕ) (hnd : (files.map pathStr).Nodup) :
    (process_with_progress files [] extract hPF k).processed
      = ((files.take k).filter (fun f => (extract f).isSome)).map pathStr ∧
    (process_with_progress files [] extract hPF k).results
        ++ (process_with_progress files
            (((files.take k).filter (fun f => (extract f).isSome)).map pathStr)
            extract hPF files.length).results
      = runExtract extract files ∧
    ((∀ f ∈ files.take k, (extract f).isSome = true) →
      (remainingFiles files
        (((files.take k).filter (fun f => (extract f).isSome)).map pathStr)).length
        = files.length - k) := by
  have inj := List.inj_on_of_nodup_map hnd
  have hndf : files.Nodup := List.Nodup.of_map pathStr hnd
  have hrem0 : remainingFiles files [] = files := by
    unfold remainingFiles
    simp
  have hsub : ((files.take k).filter (fun f => (extract f).isSome)).Sublist files :=
    List.Sublist.trans (List.filter_sublist _) (List.take_sublist k files)
  have hndstrs : (((files.take k).filter (fun f => (extract f).isSome)).map pathStr).Nodup :=
    (hsub.map pathStr).nodup hnd
  have hmemiff : ∀ f ∈ files.take k,
      (pathStr f ∈ ((files.take k).filter (fun f => (extract f).isSome)).map pathStr
        ↔ (extract f).isSome = true) := by
    intro f hf
    constructor
    · intro hmem
      obtain ⟨g, hg, hge⟩ := List.mem_map.mp hmem
      have hgmem : g ∈ files := hsub.subset hg
      have hgf : g = f := inj hgmem ((List.take_sublist k files).subset hf) hge
      have := (List.mem_filter.mp hg).2
      rwa [hgf] at this
    · intro hs
      exact List.mem_map.mpr ⟨f, List.mem_filter.mpr ⟨hf, hs⟩, rfl⟩
  have hdropnot : ∀ f ∈ files.drop k,
      pathStr f ∉ ((files.take k).filter (fun f => (extract f).isSome)).map pathStr := by
    intro f hf hmem
    obtain ⟨g, hg, hge⟩ := List.mem_map.mp hmem
    have hgmem : g ∈ files := hsub.subset hg
    have hgf : g = f := inj hgmem ((List.drop_sublist k files).subset hf) hge
    have hftake : f ∈ files.take k := by
      rw [← hgf]
      exact (List.mem_filter.mp hg).1
    have happ : (files.take k ++ files.drop k).Nodup := by
      rw [List.take_append_drop]
      exact hndf
    exact (List.nodup_append.mp happ).2.2 hftake hf
  have hrem2 : remainingFiles files
        (((files.take k).filter (fun f => (extract f).isSome)).map pathStr)
      = (files.take k).filter (fun f => !((extract f).isSome)) ++ files.drop k := by
    have key : ∀ S : List String,
        (∀ f ∈ files.take k, (pathStr f ∈ S ↔ (extract f).isSome = true)) →
        (∀ f ∈ files.drop k, pathStr f ∉ S) →
        files.filter (fun f => !(S.contains (pathStr f)))
          = (files.take k).filter (fun f => !((extract f).isSome)) ++ files.drop k := by
      intro S hin hout
      conv_lhs => rw [← List.take_append_drop k files]
      rw [List.filter_append]
      congr 1
      · apply List.filter_congr
        intro f hf
        by_cases hs : (extract f).isSome = true
        · have hcon : S.contains (pathStr f) = true := List.elem_iff.mpr ((hin f hf).mpr hs)
          rw [hcon, hs]
        · have hcon : S.contains (pathStr f) = false := by
            rw [Bool.eq_false_iff]
            intro hc
            exact hs ((hin f hf).mp (List.elem_iff.mp hc))
          rw [hcon, Bool.eq_false_iff.mpr hs]
      · rw [List.filter_eq_self.mpr]
        intro f hf
        have hcon : S.contains (pathStr f) = false := by
          rw [Bool.eq_false_iff]
          intro hc
          exact hout f hf (List.elem_iff.mp hc)
        rw [hcon]
        rfl
    unfold remainingFiles
    exact key _ hmemiff hdropnot
  refine ⟨?_, ?_, ?_⟩
  · unfold process_with_progress
    rw [hrem0, progStep_processed]
    rw [foldl_addToSet_disjoint _ [] hndstrs (by simp)]
    simp
  · have hres1 : (process_with_progress files [] extract hPF k).results
        = runExtract extract (files.take k) := by
      unfold process_with_progress
      rw [hrem0, progStep_results]
      simp
    have hle : (remainingFiles files
        (((files.take k).filter (fun f => (extract f).isSome)).map pathStr)).length
        ≤ files.length := by
      unfold remainingFiles
      exact List.length_filter_le _ _
    have hres2 : (process_with_progress files
          (((files.take k).filter (fun f => (extract f).isSome)).map pathStr)
          extract hPF files.length).results
        = runExtract extract
            ((files.take k).filter (fun f => !((extract f).isSome)) ++ files.drop k) := by
      unfold process_with_progress
      rw [List.take_of_length_le hle, hrem2, progStep_results]
      simp
    have hfail : runExtract extract ((files.take k).filter (fun f => !((extract f).isSome)))
        = [] := by
      unfold runExtract
      rw [List.filterMap_eq_nil_iff]
      intro f hf
      have h2 := (List.mem_filter.mp hf).2
      cases hef : extract f with
      | none => rfl
      | some r =>
        rw [hef] at h2
        simp at h2
    rw [hres1, hres2]
    unfold runExtract
    unfold runExtract at hfail
    rw [List.filterMap_append, hfail]
    rw [List.nil_append, ← List.filterMap_append, List.take_append_drop]
  · intro hall
    have hfailnil : (files.take k).filter (fun f => !((extract f).isSome)) = [] := by
      rw [List.filter_eq_nil_iff]
      intro f hf
      simp [hall f hf]
    rw [hrem2, hfailnil, List.nil_append, List.length_drop]

theorem c9_resume_amended_witness :
    ((resumeOkFiles.map pathStr).Nodup) ∧
    ((process_with_progress resumeOkFiles [] resumeOkExtract true 1).processed
      = ((resumeOkFiles.take 1).filter (fun f => (resumeOkExtract f).isSome)).map pathStr ∧
     (process_with_progress resumeOkFiles [] resumeOkExtract true 1).results
        ++ (process_with_progress resumeOkFiles
            (((resumeOkFiles.take 1).filter (fun f => (resumeOkExtract f).isSome)).map pathStr)
            resumeOkExtract true resumeOkFiles.length).results
      = runExtract resumeOkExtract resumeOkFiles ∧
     ((∀ f ∈ resumeOkFiles.take 1, (resumeOkExtract f).isSome = true) →
      (remainingFiles resumeOkFiles
        (((resumeOkFiles.take 1).filter (fun f => (resumeOkExtract f).isSome)).map pathStr)).length
        = resumeOkFiles.length - 1)) :=
  ⟨by decide, c9_resume_amended resumeOkFiles resumeOkExtract true 1 (by decide)⟩
